import Mathlib

/-!
Formal model of the flashcard quiz state machine implemented in `src/app.py`
(jeu-prepositions-web).  The mutable Streamlit `st.session_state` fields
(`cards`, `i`, `blank_i`, `score_ok`, `score_tot`, `show_fr`, `feedback`,
`finished`) become an explicit `Session` record, and each command handler
(`init_state`, `next_card`, `reset_game`, the `make_onclick` answer callback,
`render_sentence_progress`, and the list-shape check inside `load_cards`)
becomes a pure function on it.  `random.shuffle` is nondeterministic, so the
operations that shuffle take the shuffled list as an explicit argument; the
theorems that depend on shuffling carry a `List.Perm` hypothesis.

Python string primitives used by the code are hardcoded to fixed patterns in
the source (`split("___")`, `replace("  ", " ")`, `.upper()` on ASCII
preposition names), so they are embedded as structural recursions over the
character list of a `String`, which the kernel can evaluate.
-/

/-- ASCII upper-casing of one character, as Python `str.upper` acts on the
ASCII strings this app manipulates. -/
def upperChar (c : Char) : Char :=
  if 'a' ≤ c ∧ c ≤ 'z' then Char.ofNat (c.toNat - 32) else c

/-- `s.upper()` for the ASCII strings used by the app. -/
def strUpper (s : String) : String := ⟨s.data.map upperChar⟩

/-- `sentence.split("___")` (app.py line 91): split on non-overlapping
occurrences of three underscores, scanning left to right. -/
def splitTripleAux : List Char → List (List Char)
  | '_' :: '_' :: '_' :: rest => [] :: splitTripleAux rest
  | c :: rest =>
    match splitTripleAux rest with
    | h :: t => (c :: h) :: t
    | [] => [[c]]
  | [] => [[]]

/-- String wrapper for `splitTripleAux`. -/
def splitTriple (s : String) : List String :=
  (splitTripleAux s.data).map (fun l => ⟨l⟩)

/-- `text.replace("  ", " ")` (app.py line 100): replace each non-overlapping
run of two spaces by one, scanning left to right. -/
def collapseDoubleAux : List Char → List Char
  | ' ' :: ' ' :: rest => ' ' :: collapseDoubleAux rest
  | c :: rest => c :: collapseDoubleAux rest
  | [] => []

/-- String wrapper for `collapseDoubleAux`. -/
def collapseDouble (s : String) : String := ⟨collapseDoubleAux s.data⟩

/-- One quiz card, as read from the JSON records (`card["it"]`, `card["fr"]`,
`card["answers"]`, `card["explanations"]`, app.py lines 166-169). -/
structure Card where
  it : String
  fr : String
  answers : List (List String)
  explanations : List String
deriving DecidableEq, Repr

/-- The mutable per-player quiz state held in `st.session_state`
(app.py lines 103-112). -/
structure Session where
  cards : List Card
  i : Nat
  blank_i : Nat
  score_ok : Nat
  score_tot : Nat
  show_fr : Bool
  feedback : String
  finished : Bool
deriving DecidableEq, Repr

/-- The default prompt assigned to `st.session_state.feedback`
(app.py lines 111, 118, 131). -/
def defaultFeedback : String := "Clique la bonne préposition."

/-- `init_state` (app.py lines 103-112): the freshly initialised session. -/
def init_state (cards : List Card) : Session :=
  { cards := cards, i := 0, blank_i := 0, score_ok := 0, score_tot := 0,
    show_fr := false, feedback := defaultFeedback, finished := false }

/-- The card the session currently displays,
`st.session_state.cards[st.session_state.i]` (app.py line 165).  Out-of-range
access, which would raise `IndexError` in Python, returns a dummy card; every
theorem below only uses it under the in-range invariant. -/
def currentCard (s : Session) : Card := s.cards.getD s.i ⟨"", "", [], []⟩

/-- `next_card` (app.py lines 115-122).  `shuffled` is the contents of the
deck after the in-place `random.shuffle` performed on wraparound; it is only
used in the wraparound branch. -/
def next_card (shuffled : List Card) (s : Session) : Session :=
  let s1 : Session := { s with i := s.i + 1, blank_i := 0, feedback := defaultFeedback }
  if s1.cards.length ≤ s1.i then
    { s1 with cards := shuffled, i := 0, finished := true }
  else
    s1

/-- `reset_game` (app.py lines 125-132).  `shuffled` is the deck contents
after the in-place `random.shuffle`. -/
def reset_game (shuffled : List Card) (s : Session) : Session :=
  { s with cards := shuffled, i := 0, blank_i := 0, score_ok := 0, score_tot := 0,
           feedback := defaultFeedback, finished := false }

/-- The answer-button callback built by `make_onclick` (app.py lines 179-195),
applied to the submitted preposition `p` and the session. -/
def submit_answer (p : String) (s : Session) : Session :=
  let answers := (currentCard s).answers
  let exps := (currentCard s).explanations
  let bi := s.blank_i
  if answers.length ≤ bi then
    s
  else
    let accepted := (answers.getD bi []).map strUpper
    if accepted.contains (strUpper p) then
      let bi1 := bi + 1
      let fb := "✅ Correct : **" ++ strUpper p ++ "** — " ++ exps.getD bi ""
      let fb1 := if bi1 = answers.length then fb ++ "  ↪ Clique **Carte suivante**." else fb
      { s with score_tot := s.score_tot + 1, score_ok := s.score_ok + 1,
               blank_i := bi1, feedback := fb1 }
    else
      { s with score_tot := s.score_tot + 1,
               feedback := "❌ Faux. Bonne réponse : **" ++ String.intercalate "/" accepted
                             ++ "**. Raison : " ++ exps.getD bi "" }

/-- A whole sequence of answer submissions, applied left to right. -/
def submit_all (ps : List String) (s : Session) : Session :=
  ps.foldl (fun t p => submit_answer p t) s

/-- The enumerated loop body of `render_sentence_progress` (app.py
lines 92-99): emit each part of the split sentence, and after every part
except the last emit the substitution for the blank at position `k`
(already-found blanks show their first accepted answer, the current blank
shows `[___]`, future blanks show `___`). -/
def renderLoop (answers : List (List String)) (blank_index : Nat) :
    Nat → List String → List String
  | _, [] => []
  | _, [p] => [p]
  | k, p :: ps =>
    p :: (if k < blank_index then " " ++ ((answers.getD k []).headD "") ++ " "
          else if k = blank_index then " [___] " else " ___ ")
      :: renderLoop answers blank_index (k + 1) ps

/-- `render_sentence_progress` (app.py lines 84-100). -/
def render_sentence_progress (sentence_it : String) (answers : List (List String))
    (blank_index : Nat) : String :=
  collapseDouble (String.join (renderLoop answers blank_index 0 (splitTriple sentence_it)))

/-- A JSON value, the shape of the data `json.loads` hands to `load_cards`. -/
inductive JValue where
  | jnull : JValue
  | jbool : Bool → JValue
  | jnum : Int → JValue
  | jstr : String → JValue
  | jarr : List JValue → JValue
  | jobj : List (String × JValue) → JValue

/-- The only shape validation `load_cards` performs on parsed data (app.py
lines 59-61 and 69-72): accept any JSON list as the card deck, reject every
non-list.  The subsequent in-place `random.shuffle` permutes the returned
list and is irrelevant to acceptance, so it is omitted here. -/
def load_cards_shape_check (data : JValue) : Except String (List JValue) :=
  match data with
  | JValue.jarr xs => Except.ok xs
  | _ => Except.error "Le contenu de cards.json doit etre une liste d objets."

/-- Field lookup in a JSON object. -/
def jLookup (fields : List (String × JValue)) (k : String) : Option JValue :=
  (fields.find? (fun f => f.1 == k)).map (fun f => f.2)

/-- A JSON value that is a string. -/
def isJStr : JValue → Bool
  | JValue.jstr _ => true
  | _ => false

/-- A JSON value that is a list of strings. -/
def isJStrList : JValue → Bool
  | JValue.jarr xs => xs.all isJStr
  | _ => false

/-- Modelled from the spec: the Card shape invariant of section 3 — a card
record must expose `it`/`fr` strings, `answers` a list of string lists and
`explanations` a list of strings, with
`len(answers) == len(explanations) == (count of "___" markers in the
sentence)`.  `load_cards` in `src/app.py` performs no such per-card check, so
this predicate exists only to state what the spec demands of a well-shaped
card. -/
def cardShapeOk (v : JValue) : Bool :=
  match v with
  | JValue.jobj fields =>
    match jLookup fields "it", jLookup fields "fr",
          jLookup fields "answers", jLookup fields "explanations" with
    | some (JValue.jstr it), some (JValue.jstr _),
      some (JValue.jarr ans), some (JValue.jarr exps) =>
        ans.all isJStrList && exps.all isJStr &&
        (ans.length == exps.length && ans.length + 1 == (splitTriple it).length)
    | _, _, _, _ => false
  | _ => false

/-- A card whose `answers` list (length 2) and `explanations` list (length 1)
have mismatched lengths: it violates the spec's Card shape invariant. -/
def malformedCard : JValue :=
  JValue.jobj
    [("it", JValue.jstr "Vado ___ scuola ___ bicicletta"),
     ("fr", JValue.jstr "Je vais"),
     ("answers", JValue.jarr [JValue.jarr [JValue.jstr "A"], JValue.jarr [JValue.jstr "IN"]]),
     ("explanations", JValue.jarr [JValue.jstr "moyen de transport"])]

/-- States reachable from `init` by any sequence of the three session
commands; each shuffle outcome is constrained to be a permutation of the deck
it shuffles. -/
inductive Reachable (init : Session) : Session → Prop where
  | refl : Reachable init init
  | submit {s : Session} (p : String) :
      Reachable init s → Reachable init (submit_answer p s)
  | next {s : Session} {l : List Card} (hl : l.Perm s.cards) :
      Reachable init s → Reachable init (next_card l s)
  | reset {s : Session} {l : List Card} (hl : l.Perm s.cards) :
      Reachable init s → Reachable init (reset_game l s)

/-! ### Concrete cards and sessions used in witnesses and counterexamples -/

/-- A two-blank demo card matching the spec's renderer example. -/
def demoCard : Card :=
  ⟨"Vado ___ scuola ___ bicicletta", "Je vais", [["A"], ["IN"]], ["direzione", "mezzo"]⟩

/-- A one-blank card whose accepted set has the two synonyms TRA/FRA. -/
def traFraCard : Card :=
  ⟨"Arrivo ___ poco", "dans peu de temps", [["TRA", "FRA"]], ["tempo futuro"]⟩

/-- A freshly initialised two-card session. -/
def demoSession : Session := init_state [demoCard, traFraCard]

/-- `demoSession` with the deck-completed flag already raised. -/
def wrapDemoSession : Session := { demoSession with finished := true }

/-- `demoSession` positioned on its last card. -/
def endDemoSession : Session := { demoSession with i := 1 }

/-- A fresh one-card session on `traFraCard`. -/
def freshTraFra : Session := init_state [traFraCard]

/-- `freshTraFra` after its single blank has been solved. -/
def solvedSession : Session := { freshTraFra with blank_i := 1, score_ok := 1, score_tot := 1 }

/-! ### Helper lemmas about the operations -/

/-- When every blank of the current card is already filled, the answer
callback returns before touching any field. -/
theorem submit_answer_solved_eq (p : String) (s : Session)
    (h : (currentCard s).answers.length ≤ s.blank_i) :
    submit_answer p s = s := by
  simp [submit_answer, h]

/-- The answer callback never moves to a different card. -/
theorem submit_answer_i_eq (p : String) (s : Session) :
    (submit_answer p s).i = s.i := by
  simp only [submit_answer]
  split_ifs <;> rfl

/-- The answer callback never changes the deck. -/
theorem submit_answer_cards_eq (p : String) (s : Session) :
    (submit_answer p s).cards = s.cards := by
  simp only [submit_answer]
  split_ifs <;> rfl

/-- The answer callback never touches the deck-completed flag. -/
theorem submit_answer_finished_eq (p : String) (s : Session) :
    (submit_answer p s).finished = s.finished := by
  simp only [submit_answer]
  split_ifs <;> rfl

/-- The answer callback looks at the same current card before and after. -/
theorem submit_answer_currentCard_eq (p : String) (s : Session) :
    currentCard (submit_answer p s) = currentCard s := by
  simp [currentCard, submit_answer_i_eq, submit_answer_cards_eq]

/-- One submission never decreases the total-attempts counter. -/
theorem submit_answer_score_tot_le (p : String) (s : Session) :
    s.score_tot ≤ (submit_answer p s).score_tot := by
  simp only [submit_answer]
  split_ifs <;> simp

/-- One submission keeps `score_ok ≤ score_tot`. -/
theorem submit_answer_ok_le_tot (p : String) (s : Session)
    (h : s.score_ok ≤ s.score_tot) :
    (submit_answer p s).score_ok ≤ (submit_answer p s).score_tot := by
  simp only [submit_answer]
  split_ifs <;> (try simp) <;> omega

/-- One submission keeps the blank index within the current card. -/
theorem submit_answer_blank_bound (p : String) (s : Session)
    (h : s.blank_i ≤ (currentCard s).answers.length) :
    (submit_answer p s).blank_i ≤ (currentCard (submit_answer p s)).answers.length := by
  rw [submit_answer_currentCard_eq]
  by_cases h1 : (currentCard s).answers.length ≤ s.blank_i
  · rw [submit_answer_solved_eq p s h1]; exact h
  · simp only [submit_answer]
    split_ifs <;> (try simp) <;> omega

/-- `submit_all` distributes over cons. -/
theorem submit_all_cons (p : String) (ps : List String) (s : Session) :
    submit_all (p :: ps) s = submit_all ps (submit_answer p s) := rfl

/-- A whole sequence of submissions never decreases the attempts counter. -/
theorem submit_all_score_tot_le (ps : List String) :
    ∀ s : Session, s.score_tot ≤ (submit_all ps s).score_tot := by
  induction ps with
  | nil => intro s; simp [submit_all]
  | cons p ps ih =>
    intro s
    rw [submit_all_cons]
    exact le_trans (submit_answer_score_tot_le p s) (ih (submit_answer p s))

/-- A whole sequence of submissions keeps `score_ok ≤ score_tot`. -/
theorem submit_all_ok_le_tot (ps : List String) :
    ∀ s : Session, s.score_ok ≤ s.score_tot →
      (submit_all ps s).score_ok ≤ (submit_all ps s).score_tot := by
  induction ps with
  | nil => intro s h; simpa [submit_all] using h
  | cons p ps ih =>
    intro s h
    rw [submit_all_cons]
    exact ih (submit_answer p s) (submit_answer_ok_le_tot p s h)

/-! ### Claim theorems -/

/-- C3: once `blank_i` has reached the number of blanks of the current card
(all blanks solved), any further `submit_answer` call returns the session
unchanged — in particular `score_tot`, `score_ok`, `blank_i` and `feedback`
are untouched — and, being a total function, it raises no error. -/
theorem submit_answer_noop_after_solved (s : Session) (p : String)
    (h : (currentCard s).answers.length ≤ s.blank_i) :
    submit_answer p s = s :=
  submit_answer_solved_eq p s h

/-- C3 witness: submitting on a fully solved one-blank card is a no-op. -/
theorem submit_answer_noop_after_solved_witness :
    submit_answer "DI" solvedSession = solvedSession :=
  submit_answer_noop_after_solved solvedSession "DI" (by decide)

/-- C2: when the current card still has an open blank
(`blank_i < number of blanks`), `submit_answer` increments `blank_i` by
exactly one iff the upper-cased submission is a member of the upper-cased
accepted set of the current blank, and leaves `blank_i` unchanged on a
non-member submission. -/
theorem submit_answer_blank_advance_iff (s : Session) (p : String)
    (h : s.blank_i < (currentCard s).answers.length) :
    ((submit_answer p s).blank_i = s.blank_i + 1 ↔
      (((currentCard s).answers.getD s.blank_i []).map strUpper).contains (strUpper p) = true) ∧
    ((((currentCard s).answers.getD s.blank_i []).map strUpper).contains (strUpper p) = false →
      (submit_answer p s).blank_i = s.blank_i) := by
  have h1 : ¬ ((currentCard s).answers.length ≤ s.blank_i) := by omega
  simp only [submit_answer]
  rw [if_neg h1]
  by_cases hmem :
      (((currentCard s).answers.getD s.blank_i []).map strUpper).contains (strUpper p) = true
  · rw [if_pos hmem]
    exact ⟨iff_of_true rfl hmem, fun hf => by rw [hmem] at hf; exact Bool.noConfusion hf⟩
  · rw [if_neg hmem]
    exact ⟨iff_of_false (show ¬ s.blank_i = s.blank_i + 1 by omega) hmem, fun _ => rfl⟩

/-- C2 witness: with accepted set TRA/FRA, the lower-case submission "fra" is
accepted case-insensitively and the blank advances. -/
theorem submit_answer_blank_advance_iff_witness :
    (submit_answer "fra" freshTraFra).blank_i = freshTraFra.blank_i + 1 :=
  (submit_answer_blank_advance_iff freshTraFra "fra" (by decide)).1.mpr (by decide)

/-- C8: `next_card` leaves both score counters unchanged, on the wraparound
call (which reshuffles) as well as on an ordinary advance; scores persist
until an explicit `reset_game`. -/
theorem next_card_preserves_scores (s : Session) (l : List Card) :
    (next_card l s).score_ok = s.score_ok ∧ (next_card l s).score_tot = s.score_tot := by
  by_cases hcond : s.cards.length ≤ s.i + 1 <;> simp [next_card, hcond]

/-- C6: after `reset_game` the session has both scores zero, card and blank
index zero, the default feedback prompt, a cleared deck-completed flag, and a
deck holding the same multiset of cards (the reshuffle is a permutation). -/
theorem reset_game_spec (s : Session) (l : List Card) (hl : l.Perm s.cards) :
    (reset_game l s).score_ok = 0 ∧ (reset_game l s).score_tot = 0 ∧
    (reset_game l s).i = 0 ∧ (reset_game l s).blank_i = 0 ∧
    (reset_game l s).feedback = defaultFeedback ∧
    (reset_game l s).finished = false ∧
    (reset_game l s).cards.Perm s.cards :=
  ⟨rfl, rfl, rfl, rfl, rfl, rfl, hl⟩

/-- C6 witness: resetting a played one-card session zeroes everything. -/
theorem reset_game_spec_witness :
    (reset_game [traFraCard] solvedSession).score_ok = 0 ∧
    (reset_game [traFraCard] solvedSession).score_tot = 0 ∧
    (reset_game [traFraCard] solvedSession).i = 0 ∧
    (reset_game [traFraCard] solvedSession).blank_i = 0 ∧
    (reset_game [traFraCard] solvedSession).feedback = defaultFeedback ∧
    (reset_game [traFraCard] solvedSession).finished = false ∧
    (reset_game [traFraCard] solvedSession).cards.Perm solvedSession.cards :=
  reset_game_spec solvedSession [traFraCard] (List.Perm.refl _)

/-- C1 counterexample: the claim "any earlier advanceCard call leaves
deckJustCompleted equal to false after the call, regardless of its value
before the call" is false: in a concrete session on card 0 of 2 whose
`finished` flag is true, a non-wrapping `next_card` call leaves the flag
true. -/
theorem next_card_nonwrap_keeps_finished_true :
    wrapDemoSession.i < wrapDemoSession.cards.length - 1 ∧
    wrapDemoSession.finished = true ∧
    (next_card [] wrapDemoSession).finished ≠ false := by
  refine ⟨by decide, rfl, by decide⟩

/-- C1 (amended): calling `next_card` when `cardIndex = size - 1` resets the
card index to 0, installs the reshuffled (permuted) deck and sets the
deck-completed flag; a call at any earlier card index increments the card
index, keeps the deck, and leaves the deck-completed flag unchanged (the code
never sets it back to false — only `reset_game` does). -/
theorem next_card_wraparound (s : Session) (l : List Card) (hl : l.Perm s.cards) :
    (s.i = s.cards.length - 1 →
      (next_card l s).i = 0 ∧ (next_card l s).finished = true ∧
      (next_card l s).cards.Perm s.cards) ∧
    (s.i < s.cards.length - 1 →
      (next_card l s).finished = s.finished ∧ (next_card l s).i = s.i + 1 ∧
      (next_card l s).cards = s.cards) := by
  constructor
  · intro h
    have hcond : s.cards.length ≤ s.i + 1 := by omega
    refine ⟨by simp [next_card, hcond], by simp [next_card, hcond], ?_⟩
    simpa [next_card, hcond] using hl
  · intro h
    have hcond : ¬ (s.cards.length ≤ s.i + 1) := by omega
    exact ⟨by simp [next_card, hcond], by simp [next_card, hcond], by simp [next_card, hcond]⟩

/-- C1 witness: advancing from the last card of a two-card session wraps,
and advancing from the first card of a session with the flag raised leaves
the flag as it was. -/
theorem next_card_wraparound_witness :
    ((next_card [traFraCard, demoCard] endDemoSession).i = 0 ∧
      (next_card [traFraCard, demoCard] endDemoSession).finished = true ∧
      (next_card [traFraCard, demoCard] endDemoSession).cards.Perm endDemoSession.cards) ∧
    ((next_card [demoCard, traFraCard] wrapDemoSession).finished = wrapDemoSession.finished ∧
      (next_card [demoCard, traFraCard] wrapDemoSession).i = wrapDemoSession.i + 1 ∧
      (next_card [demoCard, traFraCard] wrapDemoSession).cards = wrapDemoSession.cards) :=
  ⟨(next_card_wraparound endDemoSession [traFraCard, demoCard]
      (List.Perm.swap demoCard traFraCard [])).1 (by decide),
   (next_card_wraparound wrapDemoSession [demoCard, traFraCard]
      (List.Perm.refl _)).2 (by decide)⟩

/-- C10: the deck-completed flag is never touched by `submit_answer`; once
true it stays true through any `next_card` call (a wraparound re-sets it, a
non-wrapping call leaves it unchanged); `reset_game` is the only operation
that makes it false. -/
theorem finished_flag_persistence :
    (∀ (s : Session) (p : String), (submit_answer p s).finished = s.finished) ∧
    (∀ (s : Session) (l : List Card), s.finished = true → (next_card l s).finished = true) ∧
    (∀ (s : Session) (l : List Card), s.i + 1 < s.cards.length →
      (next_card l s).finished = s.finished) ∧
    (∀ (s : Session) (l : List Card), (reset_game l s).finished = false) := by
  refine ⟨fun s p => submit_answer_finished_eq p s, ?_, ?_, fun s l => rfl⟩
  · intro s l hf
    by_cases hcond : s.cards.length ≤ s.i + 1 <;> simp [next_card, hcond, hf]
  · intro s l h
    have hcond : ¬ (s.cards.length ≤ s.i + 1) := by omega
    simp [next_card, hcond]

/-- C10 witness: with the flag already raised, a non-wrapping advance keeps
it true, and a reset clears it. -/
theorem finished_flag_persistence_witness :
    (next_card [] wrapDemoSession).finished = true ∧
    (next_card [] wrapDemoSession).finished = wrapDemoSession.finished ∧
    (reset_game [traFraCard] wrapDemoSession).finished = false :=
  ⟨finished_flag_persistence.2.1 wrapDemoSession [] rfl,
   finished_flag_persistence.2.2.1 wrapDemoSession [] (by decide),
   finished_flag_persistence.2.2.2 wrapDemoSession [traFraCard]⟩

/-- C4: across any sequence of `submit_answer` calls the attempts counter is
non-decreasing; starting from the freshly initialised session
`score_ok ≤ score_tot` holds after every such sequence (so in every reachable
state); and every attempt made while a blank is still open, correct or not,
increments `score_tot` by exactly one. -/
theorem submit_answer_score_invariants :
    (∀ (s : Session) (ps : List String), s.score_tot ≤ (submit_all ps s).score_tot) ∧
    (∀ (cards : List Card) (ps : List String),
      (submit_all ps (init_state cards)).score_ok ≤ (submit_all ps (init_state cards)).score_tot) ∧
    (∀ (s : Session) (p : String), s.blank_i < (currentCard s).answers.length →
      (submit_answer p s).score_tot = s.score_tot + 1) :=
  ⟨fun s ps => submit_all_score_tot_le ps s,
   fun cards ps => submit_all_ok_le_tot ps (init_state cards) (le_refl 0),
   fun s p h => by
     have h1 : ¬ ((currentCard s).answers.length ≤ s.blank_i) := by omega
     simp only [submit_answer]
     rw [if_neg h1]
     split_ifs <;> rfl⟩

/-- C4 witness: two attempts on the demo session, and one attempt on an open
blank bumping the attempts counter by exactly one. -/
theorem submit_answer_score_invariants_witness :
    demoSession.score_tot ≤ (submit_all ["A", "PER"] demoSession).score_tot ∧
    (submit_all ["A"] (init_state [demoCard])).score_ok ≤
      (submit_all ["A"] (init_state [demoCard])).score_tot ∧
    (submit_answer "PER" demoSession).score_tot = demoSession.score_tot + 1 :=
  ⟨submit_answer_score_invariants.1 demoSession ["A", "PER"],
   submit_answer_score_invariants.2.1 [demoCard] ["A"],
   submit_answer_score_invariants.2.2 demoSession "PER" (by decide)⟩

/-- The substitution emitted after the part at position `i + k` of the split
sentence: already-found blanks show the first accepted answer, the current
blank shows the active marker, later blanks the pending marker. -/
theorem renderLoop_get? (answers : List (List String)) (blank : Nat) (parts : List String) :
    ∀ (i k : Nat), 2 * k + 1 < (renderLoop answers blank i parts).length →
      (renderLoop answers blank i parts).get? (2 * k + 1) =
        some (if i + k < blank then " " ++ ((answers.getD (i + k) []).headD "") ++ " "
              else if i + k = blank then " [___] " else " ___ ") := by
  induction parts with
  | nil => intro i k h; simp [renderLoop] at h
  | cons p ps ih =>
    cases ps with
    | nil => intro i k h; simp [renderLoop] at h
    | cons q rest =>
      intro i k h
      cases k with
      | zero => simp [renderLoop]
      | succ k' =>
        have h2 : 2 * (k' + 1) + 1 = 2 * k' + 1 + 1 + 1 := by omega
        have hlen : 2 * k' + 1 < (renderLoop answers blank (i + 1) (q :: rest)).length := by
          simp only [renderLoop, List.length_cons] at h
          omega
        have hrec := ih (i + 1) k' hlen
        have hidx : i + 1 + k' = i + (k' + 1) := by omega
        rw [hidx] at hrec
        simp only [renderLoop, h2, List.get?_cons_succ]
        exact hrec

/-- C5: `render_sentence_progress` is a pure function whose loop substitutes
each placeholder at position `< blank_index` by the first entry of that
blank's accepted set (with surrounding single spaces), the placeholder at
position `= blank_index` by the active marker `[___]`, and later placeholders
by the pending marker `___`; double spaces produced by substitution are then
collapsed.  On the spec's example sentence with `blank_index = 0` the first
placeholder shows the active marker and the second the pending one, with no
double spaces, and with `blank_index = 1` the first placeholder is replaced
by `A`. -/
theorem render_sentence_progress_spec :
    (∀ (answers : List (List String)) (blank : Nat) (parts : List String) (i k : Nat),
      2 * k + 1 < (renderLoop answers blank i parts).length →
      (renderLoop answers blank i parts).get? (2 * k + 1) =
        some (if i + k < blank then " " ++ ((answers.getD (i + k) []).headD "") ++ " "
              else if i + k = blank then " [___] " else " ___ ")) ∧
    render_sentence_progress "Vado ___ scuola ___ bicicletta" [["A"], ["IN"]] 0 =
      "Vado [___] scuola ___ bicicletta" ∧
    render_sentence_progress "Vado ___ scuola ___ bicicletta" [["A"], ["IN"]] 1 =
      "Vado A scuola [___] bicicletta" :=
  ⟨fun answers blank parts i k h => renderLoop_get? answers blank parts i k h,
   by decide, by decide⟩

/-- C5 witness: on the example sentence with the first blank active, the
substitution emitted for the first placeholder is the active marker. -/
theorem render_sentence_progress_spec_witness :
    (renderLoop [["A"], ["IN"]] 0 0 (splitTriple "Vado ___ scuola ___ bicicletta")).get? 1 =
      some " [___] " := by
  have h := render_sentence_progress_spec.1 [["A"], ["IN"]] 0
    (splitTriple "Vado ___ scuola ___ bicicletta") 0 0 (by decide)
  simpa using h

/-- C7 counterexample: a concrete card whose `answers` list (length 2) and
`explanations` list (length 1) have mismatched lengths — violating the spec's
Card shape invariant — is accepted by the only shape check `load_cards`
performs, instead of failing with a MalformedSource error. -/
theorem load_cards_accepts_malformed_card :
    load_cards_shape_check (JValue.jarr [malformedCard]) = Except.ok [malformedCard] ∧
    cardShapeOk malformedCard = false :=
  ⟨rfl, rfl⟩

/-- C7 (amended): card loading fails fatally only when the parsed top-level
JSON value is not a list (or the source is unreadable); the per-card shape
invariant, e.g. matching `answers`/`explanations` lengths, is not validated,
so a list containing malformed cards is loaded successfully. -/
theorem load_cards_check_top_level_only (v : JValue) :
    (load_cards_shape_check v).isOk = true ↔ ∃ xs, v = JValue.jarr xs := by
  cases v <;> simp [load_cards_shape_check, Except.isOk, Except.toBool]

/-- C9: in every session state reachable from initialisation with a non-empty
deck by any sequence of `submit_answer`, `next_card` and `reset_game` calls
(each shuffle being a permutation), the card index is inside the deck and the
blank index never exceeds the number of blanks of the current card. -/
theorem reachable_session_indices_in_range (cards : List Card) (hc : cards ≠ [])
    (s : Session) (h : Reachable (init_state cards) s) :
    s.i < s.cards.length ∧ s.blank_i ≤ (currentCard s).answers.length := by
  induction h with
  | refl =>
    refine ⟨?_, ?_⟩
    · simpa [init_state] using List.length_pos.mpr hc
    · simp [init_state]
  | submit p hr ih =>
    refine ⟨?_, submit_answer_blank_bound _ _ ih.2⟩
    rw [submit_answer_i_eq, submit_answer_cards_eq]
    exact ih.1
  | @next s' l hl hr ih =>
    have hlen : l.length = s'.cards.length := hl.length_eq
    by_cases hcond : s'.cards.length ≤ s'.i + 1
    · refine ⟨?_, ?_⟩
      · simp only [next_card]
        rw [if_pos hcond]
        show 0 < l.length
        omega
      · simp only [next_card]
        rw [if_pos hcond]
        exact Nat.zero_le _
    · refine ⟨?_, ?_⟩
      · simp only [next_card]
        rw [if_neg hcond]
        show s'.i + 1 < s'.cards.length
        omega
      · simp only [next_card]
        rw [if_neg hcond]
        exact Nat.zero_le _
  | @reset s' l hl hr ih =>
    have hlen : l.length = s'.cards.length := hl.length_eq
    refine ⟨?_, Nat.zero_le _⟩
    show 0 < l.length
    omega

/-- C9 witness: after one submission on a fresh two-card session both indices
are in range. -/
theorem reachable_session_indices_in_range_witness :
    (submit_answer "A" (init_state [demoCard, traFraCard])).i <
      (submit_answer "A" (init_state [demoCard, traFraCard])).cards.length ∧
    (submit_answer "A" (init_state [demoCard, traFraCard])).blank_i ≤
      (currentCard (submit_answer "A" (init_state [demoCard, traFraCard]))).answers.length :=
  reachable_session_indices_in_range [demoCard, traFraCard] (by simp) _
    (Reachable.submit "A" Reachable.refl)
